import Mathlib

/-!
# Dune::CpGrid facade: scatterGrid and createCartesian

A shallow embedding of `dune/grid/cpgrid/CpGrid.cpp`.

* `CpGridData` is declared in `CpGridData.hpp`, which is not part of the
  sources at hand; it is a type parameter `D`, and its methods are fields of
  the environment `Env`.
* `double` values are a type parameter `R`; the only operations the file
  performs on them (`int * double`, the literals `0.0` and `1.0`) are fields
  of `Env`.  Nothing below depends on floating-point rounding.
* MPI and `Dune::CollectiveCommunication` are modelled by the communicator
  type `Comm` together with `commSize` and `MPI_Comm_create`.
* A method that raises a C++ exception ends in `Ending.threw`, carrying the
  grid object as the exception left it; dereferencing a null
  `current_view_data_` ends in `Ending.undefined`.
* The raw pointer `current_view_data_` is modelled by the object it points
  to (`Ptr`).  `distributed_data_` is only ever reset while it is empty, so a
  pointer to a replaced object does not arise.
* `int` arithmetic is carried out on unbounded integers: signed overflow is
  undefined behaviour in the source language and is not modelled.
* `Event` and `ZcornState.fills` record the calls made, for stating which
  calls a run performs; they have no counterpart in the program state.
-/

namespace Dune

/-! ## Data model -/

/-- Outcome of a `CpGridData` method: the object after a normal return, or
the object as it was left when the method raised. -/
inductive Call (D : Type) where
  | done (d : D)
  | raised (d : D)
  deriving DecidableEq

/-- An MPI communicator handle as seen by one process. -/
inductive Comm where
  /-- The handle `MPI_COMM_WORLD`. -/
  | world
  /-- The handle `MPI_COMM_NULL`. -/
  | null
  /-- A communicator made by `MPI_Comm_create` from the group of `ranks`. -/
  | created (ranks : List Int)
  deriving DecidableEq

/-- Target of the raw pointer `current_view_data_`. -/
inductive Ptr where
  /-- The null pointer. -/
  | null
  /-- The object owned by `data_`. -/
  | data
  /-- The object owned by `distributed_data_`. -/
  | distributed
  deriving DecidableEq

/-- The three data members of `Dune::CpGrid`: `data_` (an owning pointer that
is never empty), the raw pointer `current_view_data_` and the owning pointer
`distributed_data_` (`none` when empty). -/
structure CpGrid (D : Type) where
  data_ : D
  current_view_data_ : Ptr
  distributed_data_ : Option D
  deriving DecidableEq

/-- The collaborators of `CpGrid.cpp` that live in other files. -/
structure Env (D R Deck Ecl : Type) where
  /-- Whether `HAVE_MPI && DUNE_VERSION_NEWER(DUNE_GRID, 2, 3)` holds. -/
  haveMPI : Bool
  /-- Number of processes in `MPI_COMM_WORLD`. -/
  worldSize : Nat
  /-- Rank of this process in `MPI_COMM_WORLD`. -/
  worldRank : Nat
  /-- Value of `std::pow(n, 1.0/3.0)` after conversion to `int`. -/
  powThird : Nat → Nat
  /-- Constructor `CpGridData(*this)`. -/
  newFromGrid : D
  /-- Constructor `CpGridData(MPI_Comm)`. -/
  newFromComm : Comm → D
  /-- Value of `global_cell_.size()`. -/
  globalCellSize : D → Nat
  /-- Free function `partition(grid, initial_split, num_parts, cell_part)`:
  `none` when it raises, else the values left in `num_parts` and `cell_part`. -/
  partition : CpGrid D → Nat × Nat × Nat → Int → List Int → Option (Int × List Int)
  /-- Method `distributeGlobalGrid(grid, view_data, cell_part, overlap_layers)`,
  applied to the object in the first argument. -/
  distributeGlobalGrid : D → CpGrid D → D → List Int → Int → Call D
  /-- Literal `0.0`. -/
  zero : R
  /-- Literal `1.0`. -/
  one : R
  /-- Product `int * double`. -/
  imul : Int → R → R
  /-- Method `readSintefLegacyFormat(grid_prefix)`. -/
  readSintefLegacyFormat : D → String → Call D
  /-- Method `readEclipseFormat(filename, periodic_extension, turn_normals)`. -/
  readEclipseFormat : D → String → Bool → Bool → Call D
  /-- Method `processEclipseFormat(deck, periodic_extension, turn_normals, clip_z, poreVolume)`. -/
  processDeck : D → Deck → Bool → Bool → Bool → List R → Call D
  /-- Method `processEclipseFormat(ecl_grid, periodic_extension, turn_normals, clip_z, poreVolume)`. -/
  processEclGrid : D → Ecl → Bool → Bool → Bool → List R → Call D
  /-- Method `processEclipseFormat(input_data, z_tolerance, remove_ij_boundary, turn_normals)`
  on the arrays `dims`, `coord`, `zcorn`, `actnum` of a `grdecl`. -/
  processGrdecl : D → (Int × Int × Int) × List R × List R × List Int → R → Bool → Bool → Call D

/-- How a member function of `CpGrid` ends. -/
inductive Ending (D α : Type) where
  /-- Normal return with the grid afterwards and the returned value. -/
  | returned (g : CpGrid D) (a : α)
  /-- An exception left the function; the grid as it is then. -/
  | threw (g : CpGrid D)
  /-- A null pointer was dereferenced. -/
  | undefined
  deriving DecidableEq

/-- Calls that `scatterGrid` makes to its collaborators, in program order. -/
inductive Event where
  | partition (initial_split : Nat × Nat × Nat)
  | groupIncl (ranks : List Int)
  | commCreate (ranks : List Int)
  | newCpGridData (comm : Comm)
  | distributeGlobalGrid (cell_part : List Int) (overlapLayers : Int)
  deriving DecidableEq

/-- A run of `scatterGrid`: the collaborator calls made and how it ended. -/
structure Run (D : Type) where
  trace : List Event
  ending : Ending D Bool
  deriving DecidableEq

variable {D R Deck Ecl : Type}

/-! ## Construction and pointer access -/

/-- Constructor `CpGrid::CpGrid()`. -/
def CpGrid.new (env : Env D R Deck Ecl) : CpGrid D :=
  { data_ := env.newFromGrid
    current_view_data_ := Ptr.data
    distributed_data_ := none }

/-- Value of `distributed_data_.get()`. -/
def CpGrid.distributedGet (g : CpGrid D) : Ptr :=
  match g.distributed_data_ with
  | some _ => Ptr.distributed
  | none => Ptr.null

/-- The object `*current_view_data_`, if the pointer has a live target. -/
def CpGrid.view (g : CpGrid D) : Option D :=
  match g.current_view_data_ with
  | Ptr.null => none
  | Ptr.data => some g.data_
  | Ptr.distributed => g.distributed_data_

/-- Serial state: no distributed data, active view is the global data. -/
def CpGrid.Serial (g : CpGrid D) : Prop :=
  g.distributed_data_ = none ∧ g.current_view_data_ = Ptr.data

/-- Value of `CollectiveCommunication(c).size()`; zero on `MPI_COMM_NULL`. -/
def commSize (env : Env D R Deck Ecl) : Comm → Int
  | Comm.world => env.worldSize
  | Comm.null => 0
  | Comm.created ranks => ranks.length

/-- Effect of `MPI_Comm_create(cc, new_group, &new_comm)` on `new_comm`, for
the group made of `ranks`: processes outside the group get `MPI_COMM_NULL`. -/
def MPI_Comm_create (my_num : Int) (ranks : List Int) : Comm :=
  if my_num ∈ ranks then Comm.created ranks else Comm.null

/-! ## scatterGrid -/

/-- The three entries of `initial_split`, given `cc.size()` and the value `c`
that `std::pow(cc.size(), 1.0/3.0)` takes as an `int`. -/
def initial_split (size c : Nat) : Nat × Nat × Nat :=
  (size / (c * c), c, c)

/-- The vector `ranks` after `for(int i=0; i<num_parts; ++i) ranks[i]=i;`,
starting from `std::vector<int> ranks(num_parts)`. -/
def fillRanks (num_parts : Nat) : List Int :=
  (List.range num_parts).foldl (fun ranks i => ranks.set i (i : Int))
    (List.replicate num_parts 0)

/-- The part of `scatterGrid` from `if(my_num<cc.size())` to the end. -/
def scatterTail (env : Env D R Deck Ecl) (g : CpGrid D) (view : D) (overlapLayers : Int)
    (my_num : Int) (cell_part : List Int) (new_comm cc : Comm) (trace : List Event) : Run D :=
  if my_num < commSize env cc then
    let fresh := env.newFromComm new_comm
    let g1 : CpGrid D := { g with distributed_data_ := some fresh }
    let trace := trace ++ [Event.newCpGridData new_comm,
      Event.distributeGlobalGrid cell_part overlapLayers]
    match env.distributeGlobalGrid fresh g1 view cell_part overlapLayers with
    | Call.raised d => ⟨trace, Ending.threw { g1 with distributed_data_ := some d }⟩
    | Call.done d =>
      let g2 : CpGrid D := { g1 with distributed_data_ := some d }
      ⟨trace, Ending.returned { g2 with current_view_data_ := g2.distributedGet } true⟩
  else
    ⟨trace, Ending.returned { g with current_view_data_ := g.distributedGet } true⟩

/-- Member function `CpGrid::scatterGrid(int overlapLayers)`. -/
def scatterGrid (env : Env D R Deck Ecl) (g : CpGrid D) (overlapLayers : Int) : Run D :=
  if env.haveMPI then
    if g.distributed_data_.isSome then
      ⟨[], Ending.returned g false⟩
    else
      let cc := Comm.world
      match g.view with
      | none => ⟨[], Ending.undefined⟩
      | some view =>
        let cell_part := List.replicate (env.globalCellSize view) (0 : Int)
        let my_num : Int := env.worldRank
        let num_parts : Int := -1
        let split := initial_split env.worldSize (env.powThird env.worldSize)
        let trace := [Event.partition split]
        match env.partition g split num_parts cell_part with
        | none => ⟨trace, Ending.threw g⟩
        | some (num_parts, cell_part) =>
          if num_parts < commSize env cc then
            if num_parts < 0 then
              -- `std::vector<int> ranks(num_parts)` raises on a negative size
              ⟨trace, Ending.threw g⟩
            else
              let ranks := fillRanks num_parts.toNat
              let new_comm := MPI_Comm_create my_num ranks
              let trace := trace ++ [Event.groupIncl ranks, Event.commCreate ranks]
              scatterTail env g view overlapLayers my_num cell_part new_comm new_comm trace
          else
            scatterTail env g view overlapLayers my_num cell_part cc cc trace
  else
    ⟨[], Ending.returned g false⟩

/-! ## Operations forwarded to the active view -/

/-- A call `current_view_data_->f(...)`, where `f` may modify the object. -/
def viaView (g : CpGrid D) (f : D → Call D) : Ending D Unit :=
  match g.current_view_data_ with
  | Ptr.null => Ending.undefined
  | Ptr.data =>
    match f g.data_ with
    | Call.done d => Ending.returned { g with data_ := d } ()
    | Call.raised d => Ending.threw { g with data_ := d }
  | Ptr.distributed =>
    match g.distributed_data_ with
    | none => Ending.undefined
    | some x =>
      match f x with
      | Call.done d => Ending.returned { g with distributed_data_ := some d } ()
      | Call.raised d => Ending.threw { g with distributed_data_ := some d }

/-- Member function `CpGrid::readSintefLegacyFormat`. -/
def readSintefLegacyFormat (env : Env D R Deck Ecl) (g : CpGrid D) ( grid_prefix : String) :
    Ending D Unit :=
  viaView g (fun d => env.readSintefLegacyFormat d grid_prefix)

/-- Member function `CpGrid::readEclipseFormat`. -/
def readEclipseFormat (env : Env D R Deck Ecl) (g : CpGrid D) (filename : String)
    (periodic_extension turn_normals : Bool) : Ending D Unit :=
  viaView g (fun d => env.readEclipseFormat d filename periodic_extension turn_normals)

/-- Effect of `std::fill(first, first + count, v)` on the array into which
`first` points at index `first`; nothing is written when `count <= 0`. -/
def fill (a : List R) (first count : Int) (v : R) : List R :=
  (List.range count.toNat).foldl (fun a (i : Nat) => a.set (first + (i : Int)).toNat v) a

/-- Indices written by `std::fill(first, first + count, v)`. -/
def fillIndices (w : Int × Int) : List Int :=
  (List.range w.2.toNat).map (fun i : Nat => w.1 + (i : Int))

/-- The grid a member function leaves behind, when it leaves one. -/
def Ending.state {α : Type} : Ending D α → Option (CpGrid D)
  | Ending.returned g _ => some g
  | Ending.threw g => some g
  | Ending.undefined => none

/-- Environment with `size` processes, seen from rank `rank`. -/
def sampleEnv (size rank : Nat) (numParts : Int) (partitionOk ok : Bool) :
    Env Nat Int Unit Unit :=
  { haveMPI := true
    worldSize := size
    worldRank := rank
    powThird := fun n => ((List.range (n + 1)).filter (fun c => c * c * c ≤ n)).length - 1
    newFromGrid := 64
    newFromComm := fun _ => 0
    globalCellSize := fun d => d
    partition := fun _ _ _ cell_part => if partitionOk then some (numParts, cell_part) else none
    distributeGlobalGrid := fun _ _ view _ _ =>
      if ok then Call.done (view / 2) else Call.raised 1
    zero := 0
    one := 1
    imul := fun i x => i * x
    readSintefLegacyFormat := fun d _ => Call.done d
    readEclipseFormat := fun d _ _ _ => Call.done d
    processDeck := fun d _ _ _ _ _ => Call.done d
    processEclGrid := fun d _ _ _ _ _ => Call.done d
    processGrdecl := fun _ i _ _ _ => Call.done i.2.2.2.length }

/-! ## Lemmas on the rank list -/

theorem foldl_set_range_length (l : List Int) (k : Nat) :
    ((List.range k).foldl (fun ranks i => ranks.set i (i : Int)) l).length = l.length := by
  induction k with
  | zero => simp
  | succ k ih => simp [List.range_succ, List.foldl_append, ih]

theorem foldl_set_range_getElem? (l : List Int) (k j : Nat) :
    ((List.range k).foldl (fun ranks i => ranks.set i (i : Int)) l)[j]? =
      if j < k ∧ j < l.length then some (j : Int) else l[j]? := by
  induction k with
  | zero => simp
  | succ k ih =>
    rw [List.range_succ, List.foldl_append]
    simp only [List.foldl_cons, List.foldl_nil]
    rw [List.getElem?_set, foldl_set_range_length, ih]
    by_cases hkj : k = j
    · subst hkj
      by_cases hl : k < l.length
      · simp [hl]
      · have : l[k]? = none := by simp at hl; simp [hl]
        simp [hl, this]
    · by_cases hjk : j < k
      · have : j < k + 1 := by omega
        simp [hkj, hjk, this]
      · have : ¬ j < k + 1 := by omega
        simp [hkj, hjk, this]

theorem fillRanks_eq (n : Nat) : fillRanks n = (List.range n).map Int.ofNat := by
  apply List.ext_getElem?
  intro j
  unfold fillRanks
  rw [foldl_set_range_getElem?, List.getElem?_map]
  by_cases hj : j < n
  · rw [List.getElem?_range hj]
    simp [hj]
  · have h1 : (List.replicate n (0 : Int))[j]? = none := by simp; omega
    have h2 : (List.range n)[j]? = none := by simp; omega
    rw [h1, h2]
    simp [hj]

theorem mem_fillRanks (n r : Nat) : ((r : Int) ∈ fillRanks n) ↔ r < n := by
  rw [fillRanks_eq, List.mem_map]
  constructor
  · rintro ⟨a, ha, hr⟩
    have : a = r := Int.ofNat.inj hr
    subst this
    exact List.mem_range.1 ha
  · intro h
    exact ⟨r, List.mem_range.2 h, rfl⟩

theorem length_fillRanks (n : Nat) : (fillRanks n).length = n := by
  rw [fillRanks_eq, List.length_map, List.length_range]

/-! ## Lemmas on the two branches of scatterGrid -/

/-- The run of `scatterGrid` when fewer parts than processes came back. -/
theorem scatterGrid_sub_group (env : Env D R Deck Ecl) (g : CpGrid D) (overlapLayers : Int)
    (view : D) (numParts : Int) (cell_part : List Int)
    (hmpi : env.haveMPI = true) (hnone : g.distributed_data_ = none)
    (hview : g.view = some view)
    (hpart : env.partition g (initial_split env.worldSize (env.powThird env.worldSize)) (-1)
      (List.replicate (env.globalCellSize view) 0) = some (numParts, cell_part))
    (h0 : 0 ≤ numParts) (h1 : numParts < env.worldSize) :
    scatterGrid env g overlapLayers =
      scatterTail env g view overlapLayers env.worldRank cell_part
        (MPI_Comm_create env.worldRank (fillRanks numParts.toNat))
        (MPI_Comm_create env.worldRank (fillRanks numParts.toNat))
        [Event.partition (initial_split env.worldSize (env.powThird env.worldSize)),
          Event.groupIncl (fillRanks numParts.toNat),
          Event.commCreate (fillRanks numParts.toNat)] := by
  have h0' : ¬ numParts < 0 := by omega
  simp [scatterGrid, hmpi, hnone, hview, hpart, commSize, h1, h0']

/-- The run of `scatterGrid` when at least as many parts as processes came back. -/
theorem scatterGrid_full_group (env : Env D R Deck Ecl) (g : CpGrid D) (overlapLayers : Int)
    (view : D) (numParts : Int) (cell_part : List Int)
    (hmpi : env.haveMPI = true) (hnone : g.distributed_data_ = none)
    (hview : g.view = some view)
    (hpart : env.partition g (initial_split env.worldSize (env.powThird env.worldSize)) (-1)
      (List.replicate (env.globalCellSize view) 0) = some (numParts, cell_part))
    (h1 : (env.worldSize : Int) ≤ numParts) :
    scatterGrid env g overlapLayers =
      scatterTail env g view overlapLayers env.worldRank cell_part Comm.world Comm.world
        [Event.partition (initial_split env.worldSize (env.powThird env.worldSize))] := by
  have h1' : ¬ numParts < (env.worldSize : Int) := by omega
  simp [scatterGrid, hmpi, hnone, hview, hpart, commSize, h1']

/-- Whether this process passes the test `my_num<cc.size()` after a sub-group
was made. -/
theorem participates_sub_group (env : Env D R Deck Ecl) (n : Nat) :
    ((env.worldRank : Int) < commSize env (MPI_Comm_create env.worldRank (fillRanks n))) ↔
      env.worldRank < n := by
  unfold MPI_Comm_create
  by_cases h : env.worldRank < n
  · have hm : ((env.worldRank : Int) ∈ fillRanks n) := (mem_fillRanks n _).2 h
    simp [hm, commSize, length_fillRanks, h]
  · have hm : ¬ ((env.worldRank : Int) ∈ fillRanks n) := fun hm => h ((mem_fillRanks n _).1 hm)
    simp only [hm, if_false, commSize, h, iff_false, not_lt]
    exact Int.natCast_nonneg _

theorem serial_view (g : CpGrid D) (h : g.Serial) : g.view = some g.data_ := by
  unfold CpGrid.view
  rw [h.2]

theorem scatterTail_trace (env : Env D R Deck Ecl) (g : CpGrid D) (view : D)
    (overlapLayers my_num : Int) (cell_part : List Int) (new_comm cc : Comm)
    (trace : List Event) :
    (scatterTail env g view overlapLayers my_num cell_part new_comm cc trace).trace =
      if my_num < commSize env cc then
        trace ++ [Event.newCpGridData new_comm,
          Event.distributeGlobalGrid cell_part overlapLayers]
      else trace := by
  unfold scatterTail
  by_cases h : my_num < commSize env cc
  · simp only [h, if_true]
    cases env.distributeGlobalGrid (env.newFromComm new_comm)
      { g with distributed_data_ := some (env.newFromComm new_comm) } view cell_part
      overlapLayers <;> rfl
  · simp only [h, if_false]

theorem scatterTail_ending (env : Env D R Deck Ecl) (g : CpGrid D) (view : D)
    (overlapLayers my_num : Int) (cell_part : List Int) (new_comm cc : Comm)
    (trace : List Event) (h : my_num < commSize env cc) :
    (scatterTail env g view overlapLayers my_num cell_part new_comm cc trace).ending =
      match env.distributeGlobalGrid (env.newFromComm new_comm)
        { g with distributed_data_ := some (env.newFromComm new_comm) } view cell_part
        overlapLayers with
      | Call.raised d => Ending.threw { g with distributed_data_ := some d }
      | Call.done d =>
        Ending.returned { data_ := g.data_, current_view_data_ := Ptr.distributed,
                          distributed_data_ := some d } true := by
  unfold scatterTail
  simp only [h, if_true]
  cases env.distributeGlobalGrid (env.newFromComm new_comm)
    { g with distributed_data_ := some (env.newFromComm new_comm) } view cell_part
    overlapLayers <;> rfl

theorem scatterTail_ending_out (env : Env D R Deck Ecl) (g : CpGrid D) (view : D)
    (overlapLayers my_num : Int) (cell_part : List Int) (new_comm cc : Comm)
    (trace : List Event) (h : ¬ my_num < commSize env cc) :
    (scatterTail env g view overlapLayers my_num cell_part new_comm cc trace).ending =
      Ending.returned { g with current_view_data_ := g.distributedGet } true := by
  unfold scatterTail
  simp only [h, if_false]

/-- C1: on a grid that already holds distributed data, `scatterGrid` makes no
call to the partitioner, to MPI or to the distributed build, returns `false`,
and leaves `data_`, `distributed_data_` and `current_view_data_` as they
were, whatever `overlapLayers` is and with or without MPI support. -/
theorem scatterGrid_already_distributed (env : Env D R Deck Ecl) (g : CpGrid D)
    (overlapLayers : Int) (h : g.distributed_data_.isSome = true) :
    scatterGrid env g overlapLayers = { trace := [], ending := Ending.returned g false } := by
  unfold scatterGrid
  cases env.haveMPI <;> simp [h]

theorem scatterGrid_already_distributed_witness :
    (CpGrid.mk 64 Ptr.distributed (some 32)).distributed_data_.isSome = true ∧
    scatterGrid (sampleEnv 4 0 4 true true) (CpGrid.mk 64 Ptr.distributed (some 32)) 1 =
      { trace := [], ending := Ending.returned (CpGrid.mk 64 Ptr.distributed (some 32)) false } :=
  ⟨rfl, scatterGrid_already_distributed _ _ _ rfl⟩

/-- C2 (evaluation at the failing input): in a group of 6 processes for which
the partitioner reports 2 parts, `scatterGrid` on the Serial grid of rank 2
returns `true` and leaves `distributed_data_` empty, but `current_view_data_`
is the null pointer and no longer refers to `data_`: the grid has no active
view to report a cell count from. -/
theorem scatterGrid_rank_beyond_parts_null_view :
    (CpGrid.new (sampleEnv 6 2 2 true true)).Serial ∧
    scatterGrid (sampleEnv 6 2 2 true true) (CpGrid.new (sampleEnv 6 2 2 true true)) 1 =
      { trace := [Event.partition (6, 1, 1), Event.groupIncl [0, 1], Event.commCreate [0, 1]],
        ending := Ending.returned (CpGrid.mk 64 Ptr.null none) true } ∧
    (CpGrid.mk 64 Ptr.null none).view = none := by
  refine ⟨⟨rfl, rfl⟩, ?_, rfl⟩
  decide

/-- C3: when the partitioner reports `numParts` parts with
`1 <= numParts < P`, the rank list handed to `MPI_Group_incl` and
`MPI_Comm_create` is exactly `[0, 1, ..., numParts-1]`, and the process of
original rank `r` allocates distributed data and calls `distributeGlobalGrid`
if and only if `r < numParts`. -/
theorem scatterGrid_effective_group (env : Env D R Deck Ecl) (g : CpGrid D)
    (overlapLayers numParts : Int) (cell_part : List Int)
    (hmpi : env.haveMPI = true) (hser : g.Serial)
    (hpart : env.partition g (initial_split env.worldSize (env.powThird env.worldSize)) (-1)
      (List.replicate (env.globalCellSize g.data_) 0) = some (numParts, cell_part))
    (h1 : 1 ≤ numParts) (h2 : numParts < env.worldSize) :
    fillRanks numParts.toNat = (List.range numParts.toNat).map Int.ofNat ∧
    (scatterGrid env g overlapLayers).trace.take 3 =
      [Event.partition (initial_split env.worldSize (env.powThird env.worldSize)),
        Event.groupIncl ((List.range numParts.toNat).map Int.ofNat),
        Event.commCreate ((List.range numParts.toNat).map Int.ofNat)] ∧
    ((Event.distributeGlobalGrid cell_part overlapLayers ∈ (scatterGrid env g overlapLayers).trace)
      ↔ (env.worldRank : Int) < numParts) ∧
    ((∃ c cp o, Event.newCpGridData c ∈ (scatterGrid env g overlapLayers).trace ∨
        Event.distributeGlobalGrid cp o ∈ (scatterGrid env g overlapLayers).trace)
      ↔ (env.worldRank : Int) < numParts) := by
  have h0 : 0 ≤ numParts := by omega
  have hrun := scatterGrid_sub_group env g overlapLayers g.data_ numParts cell_part hmpi hser.1
    (serial_view g hser) hpart h0 h2
  have hp := participates_sub_group env numParts.toNat
  have hlt : env.worldRank < numParts.toNat ↔ (env.worldRank : Int) < numParts := by omega
  rw [hrun, scatterTail_trace]
  refine ⟨fillRanks_eq _, ?_, ?_, ?_⟩
  · rw [← fillRanks_eq]
    split <;> simp
  · rw [← hlt, ← hp]
    split <;> simp_all
  · rw [← hlt, ← hp]
    split
    · simp_all
      exact ⟨_, [], 0, Or.inl rfl⟩
    · simp_all

theorem scatterGrid_effective_group_witness :
    (sampleEnv 6 1 2 true true).haveMPI = true ∧
    (CpGrid.new (sampleEnv 6 1 2 true true)).Serial ∧
    (1 : Int) ≤ 2 ∧ (2 : Int) < (sampleEnv 6 1 2 true true).worldSize ∧
    fillRanks (2 : Int).toNat = (List.range (2 : Int).toNat).map Int.ofNat ∧
    (scatterGrid (sampleEnv 6 1 2 true true) (CpGrid.new (sampleEnv 6 1 2 true true)) 1).trace.take 3 =
      [Event.partition (initial_split (sampleEnv 6 1 2 true true).worldSize
          ((sampleEnv 6 1 2 true true).powThird (sampleEnv 6 1 2 true true).worldSize)),
        Event.groupIncl ((List.range (2 : Int).toNat).map Int.ofNat),
        Event.commCreate ((List.range (2 : Int).toNat).map Int.ofNat)] ∧
    ((Event.distributeGlobalGrid (List.replicate 64 0) 1 ∈
        (scatterGrid (sampleEnv 6 1 2 true true) (CpGrid.new (sampleEnv 6 1 2 true true)) 1).trace)
      ↔ (((sampleEnv 6 1 2 true true).worldRank : Nat) : Int) < 2) ∧
    ((∃ c cp o, Event.newCpGridData c ∈
          (scatterGrid (sampleEnv 6 1 2 true true) (CpGrid.new (sampleEnv 6 1 2 true true)) 1).trace ∨
        Event.distributeGlobalGrid cp o ∈
          (scatterGrid (sampleEnv 6 1 2 true true) (CpGrid.new (sampleEnv 6 1 2 true true)) 1).trace)
      ↔ (((sampleEnv 6 1 2 true true).worldRank : Nat) : Int) < 2) :=
  ⟨rfl, ⟨rfl, rfl⟩, by decide, by decide,
    scatterGrid_effective_group (sampleEnv 6 1 2 true true) (CpGrid.new (sampleEnv 6 1 2 true true))
      1 2 (List.replicate 64 0) rfl ⟨rfl, rfl⟩ rfl (by decide) (by decide)⟩

/-- C4: when the partitioner reports exactly as many parts as there are
processes, `scatterGrid` makes no call to `MPI_Group_incl` or
`MPI_Comm_create`; every process `r < P` allocates its distributed data on the
original communicator and calls `distributeGlobalGrid`. -/
theorem scatterGrid_all_participate (env : Env D R Deck Ecl) (g : CpGrid D)
    (overlapLayers : Int) (cell_part : List Int)
    (hmpi : env.haveMPI = true) (hser : g.Serial) (hrank : env.worldRank < env.worldSize)
    (hpart : env.partition g (initial_split env.worldSize (env.powThird env.worldSize)) (-1)
      (List.replicate (env.globalCellSize g.data_) 0) = some ((env.worldSize : Int), cell_part)) :
    (scatterGrid env g overlapLayers).trace =
      [Event.partition (initial_split env.worldSize (env.powThird env.worldSize)),
        Event.newCpGridData Comm.world,
        Event.distributeGlobalGrid cell_part overlapLayers] := by
  have hrun := scatterGrid_full_group env g overlapLayers g.data_ env.worldSize cell_part hmpi
    hser.1 (serial_view g hser) hpart (le_refl _)
  have hlt : (env.worldRank : Int) < commSize env Comm.world := by
    simp only [commSize]; exact_mod_cast hrank
  rw [hrun, scatterTail_trace, if_pos hlt]
  rfl

theorem scatterGrid_all_participate_witness :
    (sampleEnv 4 3 4 true true).haveMPI = true ∧
    (CpGrid.new (sampleEnv 4 3 4 true true)).Serial ∧
    (sampleEnv 4 3 4 true true).worldRank < (sampleEnv 4 3 4 true true).worldSize ∧
    (scatterGrid (sampleEnv 4 3 4 true true) (CpGrid.new (sampleEnv 4 3 4 true true)) 1).trace =
      [Event.partition (initial_split (sampleEnv 4 3 4 true true).worldSize
          ((sampleEnv 4 3 4 true true).powThird (sampleEnv 4 3 4 true true).worldSize)),
        Event.newCpGridData Comm.world,
        Event.distributeGlobalGrid (List.replicate 64 0) 1] :=
  ⟨rfl, ⟨rfl, rfl⟩, by decide,
    scatterGrid_all_participate (sampleEnv 4 3 4 true true)
      (CpGrid.new (sampleEnv 4 3 4 true true)) 1 (List.replicate 64 0) rfl ⟨rfl, rfl⟩
      (by decide) rfl⟩

/-- C5 (counterexample): with 2 processes and a partitioner that reports 3
parts, `scatterGrid` on rank 0 returns `true` and installs distributed data. -/
theorem scatterGrid_too_many_parts_succeeds :
    (3 : Int) > (sampleEnv 2 0 3 true true).worldSize ∧
    scatterGrid (sampleEnv 2 0 3 true true) (CpGrid.new (sampleEnv 2 0 3 true true)) 1 =
      { trace := [Event.partition (2, 1, 1), Event.newCpGridData Comm.world,
          Event.distributeGlobalGrid (List.replicate 64 0) 1],
        ending := Ending.returned (CpGrid.mk 64 Ptr.distributed (some 32)) true } := by
  decide

/-- C5 (amended): `scatterGrid` does not check for `numParts > P`.  When the
partitioner reports more parts than processes, no process group is made; every
process `r < P` allocates distributed data on the original communicator and
calls `distributeGlobalGrid`, that data stays installed however the call
ends, and `scatterGrid` returns `true` when the call returns. -/
theorem scatterGrid_too_many_parts (env : Env D R Deck Ecl) (g : CpGrid D)
    (overlapLayers numParts : Int) (cell_part : List Int)
    (hmpi : env.haveMPI = true) (hser : g.Serial) (hrank : env.worldRank < env.worldSize)
    (hpart : env.partition g (initial_split env.worldSize (env.powThird env.worldSize)) (-1)
      (List.replicate (env.globalCellSize g.data_) 0) = some (numParts, cell_part))
    (hmany : (env.worldSize : Int) < numParts) :
    (scatterGrid env g overlapLayers).trace =
      [Event.partition (initial_split env.worldSize (env.powThird env.worldSize)),
        Event.newCpGridData Comm.world,
        Event.distributeGlobalGrid cell_part overlapLayers] ∧
    (∃ g', (scatterGrid env g overlapLayers).ending.state = some g' ∧
      g'.distributed_data_.isSome = true) ∧
    (∀ d, env.distributeGlobalGrid (env.newFromComm Comm.world)
        { g with distributed_data_ := some (env.newFromComm Comm.world) } g.data_ cell_part
        overlapLayers = Call.done d →
      (scatterGrid env g overlapLayers).ending =
        Ending.returned { data_ := g.data_, current_view_data_ := Ptr.distributed,
                          distributed_data_ := some d } true) := by
  have hrun := scatterGrid_full_group env g overlapLayers g.data_ numParts cell_part hmpi
    hser.1 (serial_view g hser) hpart (le_of_lt hmany)
  have hlt : (env.worldRank : Int) < commSize env Comm.world := by
    simp only [commSize]; exact_mod_cast hrank
  rw [hrun, scatterTail_trace, if_pos hlt, scatterTail_ending _ _ _ _ _ _ _ _ _ hlt]
  refine ⟨rfl, ?_, ?_⟩
  · cases env.distributeGlobalGrid (env.newFromComm Comm.world)
      { g with distributed_data_ := some (env.newFromComm Comm.world) } g.data_ cell_part
      overlapLayers <;> exact ⟨_, rfl, rfl⟩
  · intro d hd
    rw [hd]

theorem scatterGrid_too_many_parts_witness :
    (sampleEnv 2 1 5 true true).haveMPI = true ∧
    (CpGrid.new (sampleEnv 2 1 5 true true)).Serial ∧
    (sampleEnv 2 1 5 true true).worldRank < (sampleEnv 2 1 5 true true).worldSize ∧
    (((sampleEnv 2 1 5 true true).worldSize : Nat) : Int) < 5 ∧
    (scatterGrid (sampleEnv 2 1 5 true true) (CpGrid.new (sampleEnv 2 1 5 true true)) 0).trace =
      [Event.partition (initial_split (sampleEnv 2 1 5 true true).worldSize
          ((sampleEnv 2 1 5 true true).powThird (sampleEnv 2 1 5 true true).worldSize)),
        Event.newCpGridData Comm.world,
        Event.distributeGlobalGrid (List.replicate 64 0) 0] :=
  ⟨rfl, ⟨rfl, rfl⟩, by decide, by decide,
    (scatterGrid_too_many_parts (sampleEnv 2 1 5 true true)
      (CpGrid.new (sampleEnv 2 1 5 true true)) 0 5 (List.replicate 64 0) rfl ⟨rfl, rfl⟩
      (by decide) rfl (by decide)).1⟩

/-- C8: on a Serial grid and a process that takes part (its rank is below both
the process count and the number of parts), a `scatterGrid` call whose
`distributeGlobalGrid` returns normally returns `true`; `distributed_data_`
then holds the object that `distributeGlobalGrid` built, starting from a
fresh `CpGridData` on the effective communicator, out of the previously
active global view `data_`, the partition vector and `overlapLayers`;
`current_view_data_` points at that object; `data_` is unchanged. -/
theorem scatterGrid_installs_distributed (env : Env D R Deck Ecl) (g : CpGrid D)
    (overlapLayers numParts : Int) (cell_part : List Int) (d : D)
    (hmpi : env.haveMPI = true) (hser : g.Serial) (hrank : env.worldRank < env.worldSize)
    (hpart : env.partition g (initial_split env.worldSize (env.powThird env.worldSize)) (-1)
      (List.replicate (env.globalCellSize g.data_) 0) = some (numParts, cell_part))
    (hin : (env.worldRank : Int) < numParts)
    (hd : env.distributeGlobalGrid
      (env.newFromComm (if numParts < env.worldSize
        then Comm.created ((List.range numParts.toNat).map Int.ofNat) else Comm.world))
      { g with distributed_data_ := some (env.newFromComm (if numParts < env.worldSize
        then Comm.created ((List.range numParts.toNat).map Int.ofNat) else Comm.world)) }
      g.data_ cell_part overlapLayers = Call.done d) :
    (scatterGrid env g overlapLayers).ending =
      Ending.returned { data_ := g.data_, current_view_data_ := Ptr.distributed,
                        distributed_data_ := some d } true ∧
    (CpGrid.mk g.data_ Ptr.distributed (some d)).view = some d ∧
    Event.distributeGlobalGrid cell_part overlapLayers ∈
      (scatterGrid env g overlapLayers).trace := by
  refine ⟨?_, rfl, ?_⟩
  · by_cases hlt : numParts < env.worldSize
    · have h0 : 0 ≤ numParts := by omega
      have hn : env.worldRank < numParts.toNat := by omega
      have hp := (participates_sub_group env numParts.toNat).2 hn
      rw [scatterGrid_sub_group env g overlapLayers g.data_ numParts cell_part hmpi hser.1
        (serial_view g hser) hpart h0 hlt, scatterTail_ending _ _ _ _ _ _ _ _ _ hp]
      have hc : MPI_Comm_create env.worldRank (fillRanks numParts.toNat) =
          Comm.created ((List.range numParts.toNat).map Int.ofNat) := by
        unfold MPI_Comm_create
        rw [if_pos ((mem_fillRanks _ _).2 hn), fillRanks_eq]
      rw [if_pos hlt] at hd
      rw [hc, hd]
    · have hge : (env.worldSize : Int) ≤ numParts := by omega
      have hp : (env.worldRank : Int) < commSize env Comm.world := by
        simp only [commSize]; exact_mod_cast hrank
      rw [scatterGrid_full_group env g overlapLayers g.data_ numParts cell_part hmpi hser.1
        (serial_view g hser) hpart hge, scatterTail_ending _ _ _ _ _ _ _ _ _ hp]
      rw [if_neg hlt] at hd
      rw [hd]
  · by_cases hlt : numParts < env.worldSize
    · have h0 : 0 ≤ numParts := by omega
      have hn : env.worldRank < numParts.toNat := by omega
      have hp := (participates_sub_group env numParts.toNat).2 hn
      rw [scatterGrid_sub_group env g overlapLayers g.data_ numParts cell_part hmpi hser.1
        (serial_view g hser) hpart h0 hlt, scatterTail_trace, if_pos hp]
      simp
    · have hge : (env.worldSize : Int) ≤ numParts := by omega
      have hp : (env.worldRank : Int) < commSize env Comm.world := by
        simp only [commSize]; exact_mod_cast hrank
      rw [scatterGrid_full_group env g overlapLayers g.data_ numParts cell_part hmpi hser.1
        (serial_view g hser) hpart hge, scatterTail_trace, if_pos hp]
      simp

theorem scatterGrid_installs_distributed_witness :
    (sampleEnv 6 1 2 true true).haveMPI = true ∧
    (CpGrid.new (sampleEnv 6 1 2 true true)).Serial ∧
    (sampleEnv 6 1 2 true true).worldRank < (sampleEnv 6 1 2 true true).worldSize ∧
    (((sampleEnv 6 1 2 true true).worldRank : Nat) : Int) < 2 ∧
    (scatterGrid (sampleEnv 6 1 2 true true) (CpGrid.new (sampleEnv 6 1 2 true true)) 1).ending =
      Ending.returned { data_ := 64, current_view_data_ := Ptr.distributed,
                        distributed_data_ := some 32 } true :=
  ⟨rfl, ⟨rfl, rfl⟩, by decide, by decide,
    (scatterGrid_installs_distributed (sampleEnv 6 1 2 true true)
      (CpGrid.new (sampleEnv 6 1 2 true true)) 1 2 (List.replicate 64 0) 32 rfl ⟨rfl, rfl⟩
      (by decide) rfl (by decide) rfl).1⟩

/-! ### Failure of the partitioner or of the distributed build -/

/-- Every way `scatterGrid` can raise on a Serial grid leaves `data_` and
`current_view_data_` alone and changes `distributed_data_` at most from empty
to occupied. -/
theorem scatterGrid_threw_frame (env : Env D R Deck Ecl) (g g' : CpGrid D)
    (overlapLayers : Int) (hser : g.Serial)
    (h : (scatterGrid env g overlapLayers).ending = Ending.threw g') :
    g'.data_ = g.data_ ∧ g'.current_view_data_ = Ptr.data ∧
      (g'.distributed_data_ = none → g' = g) := by
  have hv := serial_view g hser
  obtain ⟨hn, hp⟩ := hser
  have tail : ∀ (my_num : Int) (cell_part : List Int) (new_comm cc : Comm) (trace : List Event),
      (scatterTail env g g.data_ overlapLayers my_num cell_part new_comm cc trace).ending =
        Ending.threw g' →
      g'.data_ = g.data_ ∧ g'.current_view_data_ = Ptr.data ∧
        (g'.distributed_data_ = none → g' = g) := by
    intro my_num cell_part new_comm cc trace ht
    by_cases hlt : my_num < commSize env cc
    · rw [scatterTail_ending _ _ _ _ _ _ _ _ _ hlt] at ht
      cases hcall : env.distributeGlobalGrid (env.newFromComm new_comm)
        { g with distributed_data_ := some (env.newFromComm new_comm) } g.data_ cell_part
        overlapLayers with
      | done d => rw [hcall] at ht; cases ht
      | raised d =>
        rw [hcall] at ht
        cases ht
        exact ⟨rfl, hp, fun hc => by cases hc⟩
    · rw [scatterTail_ending_out _ _ _ _ _ _ _ _ _ hlt] at ht
      cases ht
  cases hm : env.haveMPI
  · simp [scatterGrid, hm] at h
  · cases hpart : env.partition g (initial_split env.worldSize (env.powThird env.worldSize))
      (-1) (List.replicate (env.globalCellSize g.data_) 0) with
    | none =>
      simp [scatterGrid, hm, hn, hv, hpart] at h
      subst h
      exact ⟨rfl, hp, fun _ => rfl⟩
    | some res =>
      obtain ⟨numParts, cell_part⟩ := res
      by_cases hlt : numParts < env.worldSize
      · by_cases hneg : numParts < 0
        · simp [scatterGrid, hm, hn, hv, hpart, commSize, hlt, hneg] at h
          subst h
          exact ⟨rfl, hp, fun _ => rfl⟩
        · rw [scatterGrid_sub_group env g overlapLayers g.data_ numParts cell_part hm hn hv
            hpart (by omega) hlt] at h
          exact tail _ _ _ _ _ h
      · rw [scatterGrid_full_group env g overlapLayers g.data_ numParts cell_part hm hn hv
          hpart (by omega)] at h
        exact tail _ _ _ _ _ h

/-- C6 (counterexample): with 4 processes, 4 parts and a `distributeGlobalGrid`
that raises, `scatterGrid` on the Serial grid of rank 0 ends by an exception
with `distributed_data_` occupied; the grid is not Serial any more and the
next `scatterGrid` call is rejected with `false`. -/
theorem scatterGrid_failure_leaves_distributed_data :
    (CpGrid.new (sampleEnv 4 0 4 true false)).Serial ∧
    scatterGrid (sampleEnv 4 0 4 true false) (CpGrid.new (sampleEnv 4 0 4 true false)) 1 =
      { trace := [Event.partition (4, 1, 1), Event.newCpGridData Comm.world,
          Event.distributeGlobalGrid (List.replicate 64 0) 1],
        ending := Ending.threw (CpGrid.mk 64 Ptr.data (some 1)) } ∧
    (CpGrid.mk 64 Ptr.data (some 1)).distributed_data_ ≠ none ∧
    ¬ (CpGrid.mk 64 Ptr.data (some 1)).Serial ∧
    scatterGrid (sampleEnv 4 0 4 true false) (CpGrid.mk 64 Ptr.data (some 1)) 1 =
      { trace := [], ending := Ending.returned (CpGrid.mk 64 Ptr.data (some 1)) false } := by
  refine ⟨⟨rfl, rfl⟩, by decide, by decide, ?_, by decide⟩
  intro h
  exact absurd h.1 (by decide)

/-- C6 (amended): on a Serial grid, if `partition` raises, `scatterGrid` raises
and leaves the grid exactly as it was.  However `scatterGrid` raises, `data_`
is unchanged and `current_view_data_` still refers to `data_`.  If
`distributeGlobalGrid` raises on a process that takes part, `scatterGrid`
raises with `distributed_data_` holding the object the failed call left, and
every later `scatterGrid` call on that grid returns `false` without doing
anything. -/
theorem scatterGrid_failure (env : Env D R Deck Ecl) (g : CpGrid D) (overlapLayers : Int)
    (hmpi : env.haveMPI = true) (hser : g.Serial) :
    (env.partition g (initial_split env.worldSize (env.powThird env.worldSize)) (-1)
        (List.replicate (env.globalCellSize g.data_) 0) = none →
      scatterGrid env g overlapLayers =
        { trace := [Event.partition (initial_split env.worldSize (env.powThird env.worldSize))],
          ending := Ending.threw g }) ∧
    (∀ g', (scatterGrid env g overlapLayers).ending = Ending.threw g' →
      g'.data_ = g.data_ ∧ g'.current_view_data_ = Ptr.data ∧
        (g'.distributed_data_ = none → g' = g)) ∧
    (∀ (numParts : Int) (cell_part : List Int) (d : D),
      env.partition g (initial_split env.worldSize (env.powThird env.worldSize)) (-1)
        (List.replicate (env.globalCellSize g.data_) 0) = some (numParts, cell_part) →
      env.worldRank < env.worldSize → (env.worldRank : Int) < numParts →
      env.distributeGlobalGrid
        (env.newFromComm (if numParts < env.worldSize
          then Comm.created ((List.range numParts.toNat).map Int.ofNat) else Comm.world))
        { g with distributed_data_ := some (env.newFromComm (if numParts < env.worldSize
          then Comm.created ((List.range numParts.toNat).map Int.ofNat) else Comm.world)) }
        g.data_ cell_part overlapLayers = Call.raised d →
      (scatterGrid env g overlapLayers).ending =
          Ending.threw { data_ := g.data_, current_view_data_ := Ptr.data,
                         distributed_data_ := some d } ∧
        ∀ later : Int,
          scatterGrid env { data_ := g.data_, current_view_data_ := Ptr.data,
                            distributed_data_ := some d } later =
            { trace := [],
              ending := Ending.returned { data_ := g.data_, current_view_data_ := Ptr.data,
                                          distributed_data_ := some d } false }) := by
  have hv := serial_view g hser
  refine ⟨?_, fun g' h => scatterGrid_threw_frame env g g' overlapLayers hser h, ?_⟩
  · intro hpart
    simp [scatterGrid, hmpi, hser.1, hv, hpart]
  · intro numParts cell_part d hpart hrank hin hd
    refine ⟨?_, fun later => by simp [scatterGrid, hmpi]⟩
    have hg : ({ g with distributed_data_ := some d } : CpGrid D) =
        { data_ := g.data_, current_view_data_ := Ptr.data, distributed_data_ := some d } := by
      rw [← hser.2]
    by_cases hlt : numParts < env.worldSize
    · have h0 : 0 ≤ numParts := by omega
      have hn : env.worldRank < numParts.toNat := by omega
      have hp := (participates_sub_group env numParts.toNat).2 hn
      rw [scatterGrid_sub_group env g overlapLayers g.data_ numParts cell_part hmpi hser.1
        hv hpart h0 hlt, scatterTail_ending _ _ _ _ _ _ _ _ _ hp]
      have hc : MPI_Comm_create env.worldRank (fillRanks numParts.toNat) =
          Comm.created ((List.range numParts.toNat).map Int.ofNat) := by
        unfold MPI_Comm_create
        rw [if_pos ((mem_fillRanks _ _).2 hn), fillRanks_eq]
      rw [if_pos hlt] at hd
      rw [hc, hd, ← hg]
    · have hge : (env.worldSize : Int) ≤ numParts := by omega
      have hp : (env.worldRank : Int) < commSize env Comm.world := by
        simp only [commSize]; exact_mod_cast hrank
      rw [scatterGrid_full_group env g overlapLayers g.data_ numParts cell_part hmpi hser.1
        hv hpart hge, scatterTail_ending _ _ _ _ _ _ _ _ _ hp]
      rw [if_neg hlt] at hd
      rw [hd, ← hg]

theorem scatterGrid_failure_witness :
    (sampleEnv 4 0 4 false true).haveMPI = true ∧
    (CpGrid.new (sampleEnv 4 0 4 false true)).Serial ∧
    scatterGrid (sampleEnv 4 0 4 false true) (CpGrid.new (sampleEnv 4 0 4 false true)) 1 =
      { trace := [Event.partition (initial_split (sampleEnv 4 0 4 false true).worldSize
          ((sampleEnv 4 0 4 false true).powThird (sampleEnv 4 0 4 false true).worldSize))],
        ending := Ending.threw (CpGrid.new (sampleEnv 4 0 4 false true)) } ∧
    (scatterGrid (sampleEnv 4 0 4 true false) (CpGrid.new (sampleEnv 4 0 4 true false)) 1).ending =
      Ending.threw { data_ := 64, current_view_data_ := Ptr.data, distributed_data_ := some 1 } :=
  ⟨rfl, ⟨rfl, rfl⟩,
    (scatterGrid_failure (sampleEnv 4 0 4 false true) (CpGrid.new (sampleEnv 4 0 4 false true)) 1
      rfl ⟨rfl, rfl⟩).1 rfl,
    ((scatterGrid_failure (sampleEnv 4 0 4 true false) (CpGrid.new (sampleEnv 4 0 4 true false)) 1
      rfl ⟨rfl, rfl⟩).2.2 4 (List.replicate 64 0) 1 rfl (by decide) (by decide) rfl).1⟩

/-! ### The two states of the facade -/

theorem foldl_length_step {α β : Type} (step : List β → α → List β) (m : Nat)
    (hstep : ∀ c a, (step c a).length = c.length + m) (l : List α) (start : List β) :
    (l.foldl step start).length = start.length + m * l.length := by
  induction l generalizing start with
  | nil => simp
  | cons a l ih =>
    rw [List.foldl_cons, ih, hstep, List.length_cons]
    ring

theorem foldl_set_from_getElem? (l : List R) (f c j : Nat) (v : R) :
    ((List.range c).foldl (fun a (i : Nat) => a.set (f + i) v) l)[j]? =
      if f ≤ j ∧ j < f + c ∧ j < l.length then some v else l[j]? := by
  induction c with
  | zero =>
    have : ¬ (f ≤ j ∧ j < f + 0 ∧ j < l.length) := by omega
    rw [if_neg this]
    rfl
  | succ c ih =>
    rw [List.range_succ, List.foldl_append]
    simp only [List.foldl_cons, List.foldl_nil]
    rw [List.getElem?_set, foldl_length_step _ 0 (fun _ _ => by simp), ih]
    by_cases hj : f + c = j
    · subst hj
      by_cases hl : f + c < l.length
      · simp [hl]
      · have : l[f + c]? = none := by simp at hl; simp [hl]
        simp [hl, this]
    · by_cases hin : f ≤ j ∧ j < f + c ∧ j < l.length
      · have : f ≤ j ∧ j < f + (c + 1) ∧ j < l.length := by omega
        simp [hj, hin, this]
      · have : ¬ (f ≤ j ∧ j < f + (c + 1) ∧ j < l.length) := by omega
        simp [hj, hin, this]

/-- The entries that `fill` changes are those listed by `fillIndices`. -/
theorem fill_getElem? (a : List R) (first count j : Nat) (v : R) :
    (fill a (first : Int) (count : Int) v)[j]? =
      if (j : Int) ∈ fillIndices ((first : Int), (count : Int)) ∧ j < a.length then some v
      else a[j]? := by
  have hmem : ((j : Int) ∈ fillIndices ((first : Int), (count : Int))) ↔
      (first ≤ j ∧ j < first + count) := by
    simp only [fillIndices, Int.toNat_natCast, List.mem_map, List.mem_range]
    constructor
    · rintro ⟨i, hi, hij⟩
      omega
    · intro h
      exact ⟨j - first, by omega, by omega⟩
  have hfun : (fun (a : List R) (i : Nat) => a.set ((first : Int) + (i : Int)).toNat v) =
      fun (a : List R) (i : Nat) => a.set (first + i) v := by
    funext a i
    have : ((first : Int) + (i : Int)).toNat = first + i := by omega
    rw [this]
  unfold fill
  rw [Int.toNat_natCast, hfun, foldl_set_from_getElem?]
  by_cases h : first ≤ j ∧ j < first + count ∧ j < a.length
  · have h' : (j : Int) ∈ fillIndices ((first : Int), (count : Int)) ∧ j < a.length :=
      ⟨hmem.2 ⟨h.1, h.2.1⟩, h.2.2⟩
    rw [if_pos h, if_pos h']
  · have h' : ¬ ((j : Int) ∈ fillIndices ((first : Int), (count : Int)) ∧ j < a.length) :=
      fun hc => h ⟨(hmem.1 hc.1).1, (hmem.1 hc.1).2, hc.2⟩
    rw [if_neg h, if_neg h']

end Dune
